import Mathlib

/-!
Verification of the Japanese tatemae translator pipeline.

The Python sources are shallowly embedded: strings are `List Char`
(Python `len` counts code points, as does `List.length`), Python floats
that are only produced and compared (confidence scores) are `ℚ`,
exceptions are `Except`, and the two effectful inputs (the remote LLM
call and the random source) are explicit parameters.
-/

/-- Convert a Lean string literal to the `List Char` representation used
throughout the embedding. -/
def toL (s : String) : List Char := s.toList

/-- Python `str.isspace` / default `str.strip` character class (ASCII
whitespace plus the common Unicode space code points). -/
def isPySpace (c : Char) : Bool :=
  c == ' ' || c == '\t' || c == '\n' || c == '\r' || c == '\x0b' || c == '\x0c' ||
  c == '\x85' || c == '\xa0' || c == ' ' ||
  (0x2000 ≤ c.toNat && c.toNat ≤ 0x200a) ||
  c == ' ' || c == ' ' || c == ' ' || c == ' ' || c == '　'

/-- Python `str.strip()` with no argument: drop leading and trailing
whitespace. -/
def pyStrip (s : List Char) : List Char :=
  ((s.dropWhile isPySpace).reverse.dropWhile isPySpace).reverse

/-- Python `str.strip(chars)`: drop leading and trailing characters drawn
from `cs`. -/
def pyStripChars (cs : List Char) (s : List Char) : List Char :=
  ((s.dropWhile cs.contains).reverse.dropWhile cs.contains).reverse

/-- Prefix test on character lists (`needle` starts `hay`). -/
def isPre : List Char → List Char → Bool
  | [], _ => true
  | _ :: _, [] => false
  | a :: w, b :: s => a == b && isPre w s

/-- Python substring containment `needle in hay`. -/
def pyIn : List Char → List Char → Bool
  | w, [] => isPre w []
  | w, c :: s => isPre w (c :: s) || pyIn w s

/-- Element at index `n`, or `[]` when out of range; `chooseFrom` below
models `random.choice` with an arbitrary index. -/
def nthD : List (List Char) → Nat → List Char
  | [], _ => []
  | a :: _, 0 => a
  | _ :: t, n + 1 => nthD t n

/-- Model of `random.choice xs`: an arbitrary natural number reduced
modulo the length selects the element. -/
def chooseFrom (opts : List (List Char)) (n : Nat) : List Char :=
  nthD opts (n % opts.length)

/-- Python `str.replace(pat, repl)`: replace every non-overlapping
occurrence of `pat`, scanning left to right and never rescanning the
inserted replacement. -/
def pyReplace (s pat repl : List Char) : List Char :=
  if h : pat ≠ [] ∧ isPre pat s = true then
    repl ++ pyReplace (s.drop pat.length) pat repl
  else
    match s with
    | [] => []
    | c :: s' => c :: pyReplace s' pat repl
termination_by s.length
decreasing_by
  · have key : ∀ (w t : List Char), isPre w t = true → w.length ≤ t.length := by
      intro w
      induction w with
      | nil => intro t _; exact Nat.zero_le _
      | cons a w ih =>
        intro t ht
        cases t with
        | nil => simp [isPre] at ht
        | cons b u =>
          simp only [isPre, Bool.and_eq_true] at ht
          exact Nat.succ_le_succ (ih u ht.2)
    have h1 := key pat s h.2
    have h2 : 0 < pat.length := List.length_pos.mpr h.1
    simp only [List.length_drop]
    omega
  · simp

/-- No character of `s` is a left brace (Python `'\x7b'`). -/
def noLB (s : List Char) : Bool := s.all (fun c => !(c == '\x7b'))

/-- No character of `s` is a brace of either kind. -/
def noBr (s : List Char) : Bool := s.all (fun c => !(c == '\x7b') && !(c == '\x7d'))

/-- Locate the first occurrence of `w` in `s`: returns the part before the
occurrence and the part after it. -/
def splitFirst (w : List Char) : List Char → Option (List Char × List Char)
  | [] => if isPre w [] then some ([], ([] : List Char).drop w.length) else none
  | c :: s =>
    if isPre w (c :: s) then some ([], (c :: s).drop w.length)
    else (splitFirst w s).map (fun p => (c :: p.1, p.2))

/-- Placeholder token for a softener name, i.e. the Python f-string
`"\x7b" + name + "\x7d"` used by `tatemae_generator_node`. -/
def phOf (name : List Char) : List Char := '\x7b' :: (name ++ ['\x7d'])

/-- Embedding of `config.settings.SOFTENERS`: placeholder name to candidate phrases, in
the Python dict's insertion order. -/
def SOFTENERS : List (List Char × List (List Char)) :=
  [ (toL "soft_reason",
      [toL "別のテーマに注力しており", toL "他の案件を優先しておりまして",
       toL "スケジュールの都合上", toL "現在の体制では", toL "諸般の事情により"]),
    (toL "neutral_action",
      [toL "情報として参考にさせていただきます", toL "見送らせていただきます",
       toL "今後の参考とさせていただきます", toL "お断りさせていただきます",
       toL "辞退させていただきます"]),
    (toL "acknowledge",
      [toL "おっしゃることはわかります", toL "ご意見ごもっともです",
       toL "そのお考えも理解できます", toL "確かにそういう見方もあります"]),
    (toL "soft_negation",
      [toL "少し異なる見方をしております", toL "別の観点から検討が必要かもしれません",
       toL "もう少し慎重に考えたいと思っております", toL "若干異なる印象を持っております"]),
    (toL "soft_constraint",
      [toL "スケジュールが立て込んでおり", toL "調整が必要な状況でして",
       toL "確認事項がございまして", toL "社内調整中でして"]),
    (toL "future_intent",
      [toL "改めてご連絡させていただきます", toL "後日あらためてご相談させてください",
       toL "追って調整させていただきます", toL "別の機会にご相談できればと存じます"]),
    (toL "neutral_term",
      [toL "検討", toL "精査", toL "調整", toL "改善", toL "ブラッシュアップ"]),
    (toL "interest_phrase",
      [toL "興味深いお話です", toL "貴重な機会をいただきありがとうございます",
       toL "魅力的なご提案です", toL "大変光栄なお話です"]),
    (toL "reference_action",
      [toL "情報として参考にさせていただきます", toL "今後の参考とさせていただきます",
       toL "別の機会にさせていただきたく存じます", toL "今回は見送らせていただきます"]),
    (toL "polite_acknowledgment",
      [toL "対応させていただきます", toL "確認させていただきます",
       toL "検討させていただきます", toL "承りました"]) ]

/-- Embedding of `config.settings.TEMPLATES`: intent category to template strings, in
the Python dict's insertion order. -/
def TEMPLATES : List (String × List (List Char)) :=
  [ ("refusal",
      [toL "現在は\x7bsoft_reason\x7d、今回は\x7bneutral_action\x7dさせていただきます。",
       toL "誠に恐縮ですが、現在\x7bsoft_reason\x7dため、\x7bneutral_action\x7dさせていただければと存じます。",
       toL "\x7bsoft_reason\x7dという状況でございまして、\x7bneutral_action\x7dさせていただきたく存じます。"]),
    ("disagreement",
      [toL "\x7backnowledge\x7dが、\x7bsoft_negation\x7dと思っております。",
       toL "\x7backnowledge\x7d。ただ、\x7bsoft_negation\x7dという見方もあるかもしれません。",
       toL "ご意見も理解いたしますが、\x7bsoft_negation\x7dと考えております。"]),
    ("delay",
      [toL "現時点では\x7bsoft_constraint\x7dため、\x7bfuture_intent\x7d。",
       toL "現在\x7bsoft_constraint\x7dという状況でして、\x7bfuture_intent\x7dと考えております。",
       toL "申し訳ございませんが、\x7bsoft_constraint\x7dため、\x7bfuture_intent\x7dさせていただければと思います。"]),
    ("criticism",
      [toL "もう少し\x7bneutral_term\x7dの余地があるかもしれません。",
       toL "\x7bneutral_term\x7dについて、改善の余地があるかもしれないと感じました。",
       toL "今後\x7bneutral_term\x7dを検討いただけますと幸いです。"]),
    ("disinterest",
      [toL "\x7binterest_phrase\x7d。今回は\x7breference_action\x7d。",
       toL "貴重な情報をありがとうございます。\x7binterest_phrase\x7dが、今回は\x7breference_action\x7dさせていただきます。",
       toL "\x7binterest_phrase\x7d。ただ、現在は\x7breference_action\x7dという状況でございます。"]),
    ("neutral_polite",
      [toL "承知いたしました。\x7bpolite_acknowledgment\x7d。",
       toL "ご連絡ありがとうございます。\x7bpolite_acknowledgment\x7d。",
       toL "かしこまりました。\x7bpolite_acknowledgment\x7dさせていただきます。"]) ]

/-- The lookup `TEMPLATES.get(intent, TEMPLATES["neutral_polite"])` in
`tatemae_generator_node`. -/
def lookupTemplates (intent : String) : List (List Char) :=
  match TEMPLATES.find? (fun p => p.1 == intent) with
  | some p => p.2
  | none =>
      [toL "承知いたしました。\x7bpolite_acknowledgment\x7d。",
       toL "ご連絡ありがとうございます。\x7bpolite_acknowledgment\x7d。",
       toL "かしこまりました。\x7bpolite_acknowledgment\x7dさせていただきます。"]

/-- The placeholder-filling loop of `tatemae_generator_node`: for each
softener in dict order, if its placeholder occurs in the current string,
replace every occurrence with one phrase chosen by the random source
`pk`. -/
def fillSofteners : List (List Char × List (List Char)) → (List Char → Nat) → List Char → List Char
  | [], _, s => s
  | (name, opts) :: rest, pk, s =>
    fillSofteners rest pk
      (if pyIn (phOf name) s then pyReplace s (phOf name) (chooseFrom opts (pk name)) else s)

/-- Embedding of `processing.nodes.tatemae_generator_node`: select a template for the
intent (unknown intents fall back to the neutral list), then fill its
placeholders.  `tpick` models `random.choice` over templates and `pk`
models the per-softener `random.choice`.  Returns
`(template, filled_template)`. -/
def tatemae_generator (intent : String) (tpick : Nat) (pk : List Char → Nat) :
    List Char × List Char :=
  let templates := lookupTemplates intent
  let template := chooseFrom templates tpick
  (template, fillSofteners SOFTENERS pk template)

/-- Checker for the template suffix still to be processed: each softener in
turn either does not occur, or occurs exactly once with a brace-free part
before it and with brace-free candidate phrases; the final remainder is
brace-free. -/
def wfm : List (List Char × List (List Char)) → List Char → Bool
  | [], m => noBr m
  | (name, opts) :: rest, m =>
    match splitFirst (phOf name) m with
    | none => wfm rest m
    | some (l, m') =>
      noBr l && opts.all noBr && !(pyIn (phOf name) m') && wfm rest m'

/-- Lower-case a text the way `str.lower()` does for the ASCII letters that
occur in the keyword lists (Japanese characters are unaffected). -/
def pyLower (s : List Char) : List Char := s.map Char.toLower

/-- Does any keyword of the group occur in the (already lower-cased)
text? -/
def kwAny (kws : List (List Char)) (text_lower : List Char) : Bool :=
  kws.any (fun w => pyIn w text_lower)

/-- Refusal keywords of `FallbackProvider.detect_intent`. -/
def refusalKws : List (List Char) :=
  [toL "not interested", toL "decline", toL "pass", toL "no thanks", toL "reject",
   toL "興味ない"]

/-- Disagreement keywords. -/
def disagreementKws : List (List Char) :=
  [toL "disagree", toL "don't think", toL "wrong", toL "incorrect", toL "反対", toL "違う"]

/-- Delay keywords. -/
def delayKws : List (List Char) :=
  [toL "later", toL "postpone", toL "delay", toL "can't meet", toL "busy", toL "後で",
   toL "延期"]

/-- Disinterest keywords. -/
def disinterestKws : List (List Char) :=
  [toL "not interested", toL "don't want", toL "not for me", toL "興味ない"]

/-- Criticism keywords. -/
def criticismKws : List (List Char) :=
  [toL "inefficient", toL "bad", toL "poor", toL "needs improvement", toL "問題",
   toL "改善"]

/-- Embedding of `FallbackProvider.detect_intent` (the identical code also appears as
`processing.nodes._keyword_based_intent_detection`): lower-case the text
and test the keyword groups in source order, first hit at confidence 0.7,
default `neutral_polite` at 0.6. -/
def detect_intent (text : List Char) : String × ℚ :=
  let text_lower := pyLower text
  if kwAny refusalKws text_lower then ("refusal", 0.7)
  else if kwAny disagreementKws text_lower then ("disagreement", 0.7)
  else if kwAny delayKws text_lower then ("delay", 0.7)
  else if kwAny disinterestKws text_lower then ("disinterest", 0.7)
  else if kwAny criticismKws text_lower then ("criticism", 0.7)
  else ("neutral_polite", 0.6)

/-- The ordered keyword groups as the spec describes them (refusal,
disagreement, delay, disinterest, criticism). -/
def INTENT_GROUPS : List (String × List (List Char)) :=
  [("refusal", refusalKws), ("disagreement", disagreementKws), ("delay", delayKws),
   ("disinterest", disinterestKws), ("criticism", criticismKws)]

/-- Modelled from the spec's words for comparison with `detect_intent`:
"tests ordered keyword groups ..., returning the first match with a fixed
confidence of 0.7; no match leads to neutral_polite at confidence 0.6". -/
def detectIntentSpec (text : List Char) : String × ℚ :=
  match INTENT_GROUPS.find? (fun g => kwAny g.2 (pyLower text)) with
  | some g => (g.1, 0.7)
  | none => ("neutral_polite", 0.6)

/-- Embedding of `config.settings.INTENT_CATEGORIES`. -/
def INTENT_CATEGORIES : List String :=
  ["refusal", "disagreement", "delay", "disinterest", "criticism", "neutral_polite"]

/-- Embedding of `processing.nodes.intent_detector_node`.  `clientOK` models
`client and DEEPSEEK_API_KEY_CHAT and len(...) > 20`; `remote` models the
outcome of the API call together with the response parsing (an
`Except.error` is any exception raised by the call; `Except.ok` carries the
parsed category line, if any, and the confidence). -/
def intent_detector_node (input_text : List Char) (clientOK : Bool)
    (remote : Except (List Char) (Option String × ℚ)) : String × ℚ :=
  if clientOK then
    match remote with
    | Except.ok (parsed, conf) =>
      match parsed with
      | some i =>
        if INTENT_CATEGORIES.contains i then (i, conf) else ("neutral_polite", conf)
      | none => ("neutral_polite", conf)
    | Except.error _ => detect_intent input_text
  else detect_intent input_text

/-- Alternatives of the first cleanup pattern (doubled verb endings). -/
def verbToks : List (List Char) :=
  [toL "させていただきます", toL "いたします", toL "ございます"]

/-- Alternatives of the second and third cleanup patterns (particles). -/
def partToks : List (List Char) :=
  [toL "ため", toL "という状況", toL "でして"]

/-- Try the alternatives in order at the current position; the alternatives
of each pattern start with pairwise distinct characters, so at most one can
match and the regex engine's preference order is immaterial. -/
def matchTok (toks : List (List Char)) (s : List Char) : Option (List Char) :=
  toks.find? (fun t => isPre t s)

/-- Greedily consume further copies of the captured token `t`, as
`(\1)+` does.  The fuel argument is an upper bound on the recursion depth;
callers pass the string length, which suffices because every step consumes
at least one character. -/
def takeReps (t : List Char) : Nat → List Char → Nat × List Char
  | 0, s => (0, s)
  | fuel + 1, s =>
    if !t.isEmpty && isPre t s then
      let p := takeReps t fuel (s.drop t.length)
      (p.1 + 1, p.2)
    else (0, s)

/-- One scan of `re.sub` for the doubled-verb-ending pattern: at each
position, a verb-ending token followed by at least one further copy is
collapsed to a single copy; scanning resumes after the match. -/
def sub1Go : Nat → List Char → List Char
  | 0, s => s
  | _ + 1, [] => []
  | fuel + 1, c :: s =>
    match matchTok verbToks (c :: s) with
    | some t =>
      let rest := (c :: s).drop t.length
      let p := takeReps t rest.length rest
      if 1 ≤ p.1 then t ++ sub1Go fuel p.2 else c :: sub1Go fuel s
    | none => c :: sub1Go fuel s

/-- The first cleanup substitution of `FallbackProvider.refine_text`. -/
def sub1 (s : List Char) : List Char := sub1Go s.length s

/-- Match two consecutive particle tokens at the current position (the
second cleanup pattern); returns the first token, which is the regex
replacement, and the rest after the pair. -/
def pairMatch (s : List Char) : Option (List Char × List Char) :=
  match matchTok partToks s with
  | some t1 =>
    match matchTok partToks (s.drop t1.length) with
    | some t2 => some (t1, (s.drop t1.length).drop t2.length)
    | none => none
  | none => none

/-- One scan of `re.sub` for the doubled-particle pattern. -/
def sub2Go : Nat → List Char → List Char
  | 0, s => s
  | _ + 1, [] => []
  | fuel + 1, c :: s =>
    match pairMatch (c :: s) with
    | some p => p.1 ++ sub2Go fuel p.2
    | none => c :: sub2Go fuel s

/-- The second cleanup substitution of `FallbackProvider.refine_text`. -/
def sub2 (s : List Char) : List Char := sub2Go s.length s

/-- Greedily consume a run of particle tokens, tracking the count, the
token of the last iteration (the regex group that the replacement refers
to) and the rest. -/
def takeParts : Nat → List Char → Nat × List Char × List Char
  | 0, s => (0, [], s)
  | fuel + 1, s =>
    match matchTok partToks s with
    | some t =>
      let p := takeParts fuel (s.drop t.length)
      if p.1 = 0 then (1, t, s.drop t.length) else (p.1 + 1, p.2.1, p.2.2)
    | none => (0, [], s)

/-- One scan of `re.sub` for the three-or-more particle-run pattern: a run
of at least three particle tokens is replaced by the last token of the
run. -/
def sub3Go : Nat → List Char → List Char
  | 0, s => s
  | _ + 1, [] => []
  | fuel + 1, c :: s =>
    let p := takeParts (c :: s).length (c :: s)
    if 3 ≤ p.1 then p.2.1 ++ sub3Go fuel p.2.2 else c :: sub3Go fuel s

/-- The third cleanup substitution of `FallbackProvider.refine_text`. -/
def sub3 (s : List Char) : List Char := sub3Go s.length s

/-- Embedding of `FallbackProvider.refine_text`: the three regex substitutions applied
in source order to the filled template; the other arguments are unused by
the fallback. -/
def refine_text (input_text filled_template : List Char) (intent level : String) :
    List Char :=
  sub3 (sub2 (sub1 filled_template))

/-- Does the text contain a code point of the Hiragana block
U+3040 to U+309F? -/
def hasHiragana (t : List Char) : Bool :=
  t.any (fun c => 0x3040 ≤ c.toNat && c.toNat ≤ 0x309f)

/-- Katakana block U+30A0 to U+30FF. -/
def hasKatakana (t : List Char) : Bool :=
  t.any (fun c => 0x30a0 ≤ c.toNat && c.toNat ≤ 0x30ff)

/-- The `has_kanji` check of the source: U+4E00 to U+9FAF. -/
def hasKanjiBasic (t : List Char) : Bool :=
  t.any (fun c => 0x4e00 ≤ c.toNat && c.toNat ≤ 0x9faf)

/-- The `has_chinese` check of the source: U+4E00 to U+9FFF. -/
def hasCJKFull (t : List Char) : Bool :=
  t.any (fun c => 0x4e00 ≤ c.toNat && c.toNat ≤ 0x9fff)

/-- Embedding of `processing.nodes.language_detector_node` (the returned
classification; the node's other output is constantly null). -/
def language_detector_node (input_text : List Char) : String :=
  if hasHiragana input_text || hasKatakana input_text || hasKanjiBasic input_text then
    "ja"
  else if hasCJKFull input_text then "zh"
  else "en"

/-- Embedding of `processing.nodes.politeness_tuner_node`.  `clientOK` as in
`intent_detector_node`; `remote` models the refinement API call, whose
`Except.ok` carries the raw response content.  The remote branch applies
`.strip()` and then strips wrapping quote characters; the fallback branch
applies the two cleanup substitutions of the node; any exception of the
remote path yields the filled template unchanged. -/
def politeness_tuner_node (filled_template : List Char) (clientOK : Bool)
    (remote : Except (List Char) (List Char)) : List Char :=
  if clientOK then
    match remote with
    | Except.ok content =>
      pyStripChars ['」'] (pyStripChars ['「'] (pyStripChars ['\'']
        (pyStripChars ['"'] (pyStrip content))))
    | Except.error _ => filled_template
  else sub2 (sub1 filled_template)

namespace Translator

/-- A Python value passed as `input_text`: either a string or something
else (carrying its type name for the error message). -/
inductive PyObj where
  | pstr (s : List Char)
  | nonstr (typeName : List Char)

/-- The state dictionary built by `translate` and threaded through the
workflow (`models.state.TranslationState` restricted to the keys the
translator sets). -/
structure TranslationState where
  input_text : List Char
  level : String
  context : Option String
  intent : Option String
  confidence : Option ℚ
  template : Option (List Char)
  filled_template : Option (List Char)
  tatemae_text : Option (List Char)
  detected_language : Option String
  intermediate_translation : Option (List Char)

/-- The result dictionary returned by `translate`; `error := none` models
the success dictionary, which carries no error key. -/
structure TransResult where
  tatemae_text : List Char
  intent : Option String
  confidence : Option ℚ
  detected_language : Option String
  level : String
  context : Option String
  error : Option (List Char)

/-- Embedding of `translator.VALID_LEVELS`. -/
def VALID_LEVELS : List String := ["business", "ultra_polite", "casual"]

/-- Embedding of `translator.VALID_CONTEXTS` (includes `None`). -/
def VALID_CONTEXTS : List (Option String) :=
  [some "business", some "personal", some "recruiter", none]

/-- Embedding of `JapaneseTatemaeTranslator._validate_input`: raises (returns
`Except.error`) for non-string, empty/whitespace-only or over-long input;
silently coerces an invalid level to `business` and an invalid context to
`None`. -/
def validate_input (input_text : PyObj) (level : String) (context : Option String) :
    Except (List Char) (String × Option String) :=
  match input_text with
  | PyObj.nonstr ty => Except.error (toL "input_text must be a string, got " ++ ty)
  | PyObj.pstr s =>
    if s.isEmpty || (pyStrip s).isEmpty then
      Except.error (toL "input_text cannot be empty or whitespace only")
    else if s.length < 1 then
      Except.error (toL "input_text too short (minimum 1 character)")
    else if 5000 < s.length then
      Except.error (toL "input_text too long (maximum 5000 characters, got "
        ++ toL (toString s.length) ++ toL ")")
    else
      Except.ok
        (if VALID_LEVELS.contains level then level else "business",
         if context.isSome && !(VALID_CONTEXTS.contains context) then none else context)

/-- The initial state dictionary `translate` hands to the workflow. -/
def initState (s : List Char) (vl : String) (vc : Option String) : TranslationState :=
  { input_text := s, level := vl, context := vc, intent := none, confidence := none,
    template := none, filled_template := none, tatemae_text := none,
    detected_language := none, intermediate_translation := none }

/-- The string payload of a `PyObj` (only consulted after validation has
established that the input is a string). -/
def textOf : PyObj → List Char
  | PyObj.pstr s => s
  | PyObj.nonstr _ => []

/-- Embedding of `JapaneseTatemaeTranslator.translate`.  `run` models
`self.workflow.invoke`; an `Except.error` is any exception the workflow
lets escape, carrying its description. -/
def translate (input_text : PyObj) (level : String) (context : Option String)
    (run : TranslationState → Except (List Char) TranslationState) : TransResult :=
  match validate_input input_text level context with
  | Except.error e =>
    { tatemae_text := toL "申し訳ございません。入力内容を確認してください。",
      intent := some "error", confidence := some 0, detected_language := none,
      level := level, context := context, error := some e }
  | Except.ok (vl, vc) =>
    match run (initState (textOf input_text) vl vc) with
    | Except.ok fs =>
      { tatemae_text := fs.tatemae_text.getD [], intent := fs.intent,
        confidence := fs.confidence, detected_language := fs.detected_language,
        level := vl, context := vc, error := none }
    | Except.error e =>
      { tatemae_text := toL "申し訳ございません。現在処理できない状況です。",
        intent := some "error", confidence := some 0, detected_language := none,
        level := level, context := context, error := some e }

end Translator

namespace Translator

/-- The rejection condition as the claim states it: non-string input,
empty or whitespace-only input, or length outside 1 to 5000. -/
def rejectedSpec : PyObj → Bool
  | PyObj.nonstr _ => true
  | PyObj.pstr s => (pyStrip s).isEmpty || decide (5000 < s.length)

end Translator

theorem isPre_length : ∀ {w s : List Char}, isPre w s = true → w.length ≤ s.length
  | [], _, _ => Nat.zero_le _
  | _ :: _, [], h => by simp [isPre] at h
  | a :: w, b :: s, h => by
    simp only [isPre, Bool.and_eq_true] at h
    exact Nat.succ_le_succ (isPre_length h.2)

theorem isPre_append_self : ∀ (w x : List Char), isPre w (w ++ x) = true
  | [], _ => rfl
  | a :: w, x => by simp [isPre, isPre_append_self w x]

theorem isPre_decomp : ∀ {w s : List Char}, isPre w s = true → s = w ++ s.drop w.length
  | [], s, _ => by simp
  | _ :: _, [], h => by simp [isPre] at h
  | a :: w, b :: s, h => by
    simp only [isPre, Bool.and_eq_true, beq_iff_eq] at h
    simpa [h.1] using congrArg (b :: ·) (isPre_decomp h.2)

theorem drop_append_self (w x : List Char) : (w ++ x).drop w.length = x := by
  simp

theorem pyReplace_nil (pat repl : List Char) : pyReplace [] pat repl = [] := by
  rw [pyReplace]
  split
  · next h =>
    rcases pat with _ | ⟨a, w⟩
    · exact absurd rfl h.1
    · exact absurd h.2 (by simp [isPre])
  · rfl

theorem pyReplace_match {pat s : List Char} (repl : List Char) (h1 : pat ≠ [])
    (h2 : isPre pat s = true) :
    pyReplace s pat repl = repl ++ pyReplace (s.drop pat.length) pat repl := by
  rw [pyReplace, dif_pos ⟨h1, h2⟩]

theorem pyReplace_nomatch {pat s : List Char} (repl : List Char) {c : Char}
    (h : isPre pat (c :: s) = false) :
    pyReplace (c :: s) pat repl = c :: pyReplace s pat repl := by
  rw [pyReplace, dif_neg]
  rintro ⟨-, h2⟩
  simp [h] at h2

theorem pyReplace_none : ∀ {s : List Char} {pat : List Char} (repl : List Char),
    pyIn pat s = false → pyReplace s pat repl = s
  | [], pat, repl, _ => pyReplace_nil pat repl
  | c :: s, pat, repl, h => by
    simp only [pyIn, Bool.or_eq_false_iff] at h
    rw [pyReplace_nomatch repl h.1]
    exact congrArg (c :: ·) (pyReplace_none repl h.2)

theorem noLB_of_noBr : ∀ {s : List Char}, noBr s = true → noLB s = true
  | [], _ => rfl
  | c :: s, h => by
    simp only [noBr, noLB, List.all_cons, Bool.and_eq_true] at *
    exact ⟨h.1.1, noLB_of_noBr h.2⟩

theorem noBr_append {s t : List Char} (hs : noBr s = true) (ht : noBr t = true) :
    noBr (s ++ t) = true := by
  simp only [noBr, List.all_append, Bool.and_eq_true]
  exact ⟨hs, ht⟩

theorem nthD_noBr : ∀ (l : List (List Char)) (n : Nat),
    l.all noBr = true → noBr (nthD l n) = true
  | [], _, _ => rfl
  | a :: _, 0, h => by
    simp only [List.all_cons, Bool.and_eq_true] at h
    exact h.1
  | _ :: t, n + 1, h => by
    simp only [List.all_cons, Bool.and_eq_true] at h
    exact nthD_noBr t n h.2

theorem chooseFrom_noBr {opts : List (List Char)} (n : Nat)
    (h : opts.all noBr = true) : noBr (chooseFrom opts n) = true :=
  nthD_noBr opts (n % opts.length) h

theorem isPre_lbrace_head {wr : List Char} {c : Char} (hc : (c == '\x7b') = false)
    (x : List Char) : isPre ('\x7b' :: wr) (c :: x) = false := by
  have h2 : ('\x7b' == c) = false :=
    beq_eq_false_iff_ne.mpr (Ne.symm (beq_eq_false_iff_ne.mp hc))
  simp [isPre, h2]

theorem pyIn_lbraceFree_left : ∀ {P : List Char} (m wr : List Char), noLB P = true →
    pyIn ('\x7b' :: wr) (P ++ m) = pyIn ('\x7b' :: wr) m
  | [], m, wr, _ => rfl
  | c :: P, m, wr, h => by
    simp only [noLB, List.all_cons, Bool.and_eq_true] at h
    cases m with
    | nil =>
      simp only [List.append_nil] at *
      have : pyIn ('\x7b' :: wr) (c :: P) = pyIn ('\x7b' :: wr) P := by
        simp [pyIn, isPre_lbrace_head (by simpa using h.1)]
      rw [this]
      have := pyIn_lbraceFree_left ([] : List Char) wr (show noLB P = true by simp [noLB, h.2])
      simpa using this
    | cons b t =>
      show pyIn ('\x7b' :: wr) (c :: (P ++ b :: t)) = _
      simp only [pyIn, isPre_lbrace_head (by simpa using h.1), Bool.false_or]
      exact pyIn_lbraceFree_left (b :: t) wr (by simp [noLB, h.2])

theorem pyReplace_lbraceFree_left : ∀ {P : List Char} (m wr c : List Char), noLB P = true →
    pyReplace (P ++ m) ('\x7b' :: wr) c = P ++ pyReplace m ('\x7b' :: wr) c
  | [], m, wr, c, _ => by simp
  | b :: P, m, wr, c, h => by
    simp only [noLB, List.all_cons, Bool.and_eq_true] at h
    show pyReplace (b :: (P ++ m)) _ _ = _
    rw [pyReplace_nomatch c (isPre_lbrace_head (by simpa using h.1) _)]
    exact congrArg (b :: ·) (pyReplace_lbraceFree_left m wr c (by simp [noLB, h.2]))

theorem pyReplace_single {l m' : List Char} (wr c : List Char) (hl : noLB l = true)
    (hm : pyIn ('\x7b' :: wr) m' = false) :
    pyReplace (l ++ (('\x7b' :: wr) ++ m')) ('\x7b' :: wr) c = l ++ (c ++ m') := by
  rw [pyReplace_lbraceFree_left _ wr c hl]
  rw [pyReplace_match c (by simp) (isPre_append_self _ m')]
  rw [drop_append_self]
  rw [pyReplace_none c hm]

theorem pyIn_append_mid : ∀ (l w m : List Char), w ≠ [] → pyIn w (l ++ (w ++ m)) = true
  | [], w, m, hw => by
    rcases w with _ | ⟨a, t⟩
    · exact absurd rfl hw
    · show pyIn (a :: t) (a :: (t ++ m)) = true
      simp only [pyIn, Bool.or_eq_true]
      exact Or.inl (isPre_append_self (a :: t) m)
  | c :: l, w, m, hw => by
    show pyIn w (c :: (l ++ (w ++ m))) = true
    rcases w with _ | ⟨a, t⟩
    · exact absurd rfl hw
    · simp only [pyIn, Bool.or_eq_true]
      exact Or.inr (pyIn_append_mid l _ m hw)

theorem splitFirst_none : ∀ {w s : List Char}, splitFirst w s = none → pyIn w s = false
  | w, [], h => by
    simp only [splitFirst] at h
    split at h
    · exact absurd h (by simp)
    · next hp => simp [pyIn, hp]
  | w, c :: s, h => by
    simp only [splitFirst] at h
    split at h
    · exact absurd h (by simp)
    · next hp =>
      rcases hmap : splitFirst w s with _ | p
      · simp [pyIn, hp, splitFirst_none hmap]
      · rw [hmap] at h
        exact absurd h (by simp)

theorem splitFirst_some : ∀ {w s l m' : List Char},
    splitFirst w s = some (l, m') → s = l ++ (w ++ m')
  | w, [], l, m', h => by
    simp only [splitFirst] at h
    split at h
    · next hp =>
      rcases w with _ | ⟨a, t⟩
      · simpa using (Option.some.inj h)
      · exact absurd hp (by simp [isPre])
    · exact absurd h (by simp)
  | w, c :: s, l, m', h => by
    simp only [splitFirst] at h
    split at h
    · next hp =>
      obtain ⟨h1, h2⟩ := Prod.mk.injEq .. ▸ Option.some.inj h
      subst h1 h2
      simpa using isPre_decomp hp
    · next hp =>
      rcases hmap : splitFirst w s with _ | ⟨l', r'⟩
      · rw [hmap] at h
        exact absurd h (by simp)
      · rw [hmap] at h
        rw [show (some (l', r')).map (fun p => (c :: p.1, p.2)) = some (c :: l', r') from rfl] at h
        obtain ⟨h1, h2⟩ := Prod.mk.injEq .. ▸ Option.some.inj h
        subst h2
        rw [← h1]
        simpa using congrArg (c :: ·) (splitFirst_some hmap)

theorem fill_main : ∀ (sofs : List (List Char × List (List Char))) (pk : List Char → Nat)
    (P m : List Char), noBr P = true → wfm sofs m = true →
    noBr (fillSofteners sofs pk (P ++ m)) = true
  | [], pk, P, m, hP, hm => by
    simpa [fillSofteners] using noBr_append hP hm
  | (name, opts) :: rest, pk, P, m, hP, hm => by
    rcases e : splitFirst (phOf name) m with _ | ⟨l, m'⟩
    · have hnone : pyIn (phOf name) m = false := splitFirst_none e
      have hguard : pyIn (phOf name) (P ++ m) = false := by
        rw [show phOf name = '\x7b' :: (name ++ ['\x7d']) from rfl]
        rw [pyIn_lbraceFree_left m (name ++ ['\x7d']) (noLB_of_noBr hP)]
        exact hnone
      have hm' : wfm rest m = true := by
        rw [wfm, e] at hm
        exact hm
      show noBr (fillSofteners rest pk
        (if pyIn (phOf name) (P ++ m) then _ else P ++ m)) = true
      rw [hguard]
      simpa using fill_main rest pk P m hP hm'
    · rw [wfm, e] at hm
      simp only [Bool.and_eq_true, Bool.not_eq_true'] at hm
      obtain ⟨⟨⟨hl, hopts⟩, hsingle⟩, hrest⟩ := hm
      have hdec : m = l ++ (phOf name ++ m') := splitFirst_some e
      have hguard : pyIn (phOf name) (P ++ m) = true := by
        rw [show phOf name = '\x7b' :: (name ++ ['\x7d']) from rfl] at hdec ⊢
        rw [pyIn_lbraceFree_left m (name ++ ['\x7d']) (noLB_of_noBr hP), hdec]
        exact pyIn_append_mid l _ m' (by simp)
      have hc : noBr (chooseFrom opts (pk name)) = true := chooseFrom_noBr _ hopts
      show noBr (fillSofteners rest pk
        (if pyIn (phOf name) (P ++ m) then
          pyReplace (P ++ m) (phOf name) (chooseFrom opts (pk name)) else P ++ m)) = true
      rw [hguard]
      simp only [if_pos]
      have hrepl : pyReplace (P ++ m) (phOf name) (chooseFrom opts (pk name)) =
          ((P ++ l) ++ chooseFrom opts (pk name)) ++ m' := by
        rw [show phOf name = '\x7b' :: (name ++ ['\x7d']) from rfl] at hdec ⊢
        rw [pyReplace_lbraceFree_left m _ _ (noLB_of_noBr hP), hdec]
        rw [pyReplace_single _ _ (noLB_of_noBr hl) hsingle]
        simp [List.append_assoc]
      rw [hrepl]
      exact fill_main rest pk ((P ++ l) ++ chooseFrom opts (pk name)) m'
        (noBr_append (noBr_append hP hl) hc) hrest

theorem hasCJKFull_of_hasKanjiBasic {t : List Char} (h : hasKanjiBasic t = true) :
    hasCJKFull t = true := by
  simp only [hasKanjiBasic, hasCJKFull, List.any_eq_true, Bool.and_eq_true,
    decide_eq_true_eq] at *
  obtain ⟨c, hc, h1, h2⟩ := h
  exact ⟨c, hc, h1, by omega⟩

/-- Claim C9: whenever the remote refinement raises an exception, the
politeness tuner catches it and returns the unrefined filled template
verbatim; the failure never propagates (the node is a total function). -/
theorem claim_C9 (filled_template e : List Char) :
    politeness_tuner_node filled_template true (Except.error e) = filled_template := rfl

/-- Claim C4 counterexample: `refine_text` is not idempotent; on the
three-fold particle repetition ためためため one pass yields ためため and a
second pass yields ため. -/
theorem claim_C4_counterexample :
    refine_text (toL "x")
        (refine_text (toL "x") (toL "ためためため") "refusal" "business")
        "refusal" "business" ≠
      refine_text (toL "x") (toL "ためためため") "refusal" "business" := by
  decide

/-- Claim C4 amended: the cleanup pass is idempotent on the spec's
doubled-verb-ending example (one pass collapses the doubling and a second
pass changes nothing), though not on every input. -/
theorem claim_C4_amended :
    refine_text (toL "x") (toL "させていただきますさせていただきます") "refusal" "business" =
        toL "させていただきます" ∧
      refine_text (toL "x") (toL "させていただきます") "refusal" "business" =
        toL "させていただきます" := by
  constructor
  · decide
  · decide

/-- Claim C2 counterexample: a text of CJK ideographs with no kana is
classified `ja`, not `zh`, because the first branch of the detector already
accepts U+4E00 to U+9FAF. -/
theorem claim_C2_counterexample :
    hasHiragana (toL "中文") = false ∧ hasKatakana (toL "中文") = false ∧
      hasCJKFull (toL "中文") = true ∧ language_detector_node (toL "中文") = "ja" := by
  refine ⟨by decide, by decide, by decide, by decide⟩

/-- Claim C2 amended: `ja` when the text has kana or a CJK ideograph in
U+4E00 to U+9FAF; `zh` only when it has no kana, nothing in U+4E00 to
U+9FAF, and some CJK ideograph in U+4E00 to U+9FFF (hence in U+9FB0 to
U+9FFF); otherwise `en`. -/
theorem claim_C2_amended (t : List Char) :
    ((hasHiragana t || hasKatakana t || hasKanjiBasic t) = true →
      language_detector_node t = "ja") ∧
    (hasHiragana t = false → hasKatakana t = false → hasKanjiBasic t = false →
      hasCJKFull t = true → language_detector_node t = "zh") ∧
    (hasHiragana t = false → hasKatakana t = false → hasCJKFull t = false →
      language_detector_node t = "en") := by
  refine ⟨?_, ?_, ?_⟩
  · intro h
    simp [language_detector_node, h]
  · intro h1 h2 h3 h4
    simp [language_detector_node, h1, h2, h3, h4]
  · intro h1 h2 h3
    have h4 : hasKanjiBasic t = false := by
      cases h : hasKanjiBasic t
      · rfl
      · exact absurd (hasCJKFull_of_hasKanjiBasic h) (by simp [h3])
    simp [language_detector_node, h1, h2, h3, h4]

/-- Claim C2 amended, witness: a hiragana text is classified `ja`. -/
theorem claim_C2_amended_witness : language_detector_node (toL "あ") = "ja" :=
  (claim_C2_amended (toL "あ")).1 (by decide)

/-- Claim C3: the source `intent_detector_node` does not substitute
`neutral_polite` at confidence 0.5 on a remote-classification exception; it
falls back to keyword detection, which classifies "I decline this offer."
as `refusal` at confidence 0.7. -/
theorem claim_C3_divergence :
    intent_detector_node (toL "I decline this offer.") true
        (Except.error (toL "connection error")) = ("refusal", 0.7) ∧
      (("refusal", (0.7 : ℚ)) ≠ ("neutral_polite", (0.5 : ℚ))) := by
  refine ⟨rfl, fun h => ?_⟩
  have : ("refusal" : String) = "neutral_polite" := congrArg Prod.fst h
  exact absurd this (by decide)

/-- Claim C7: the fallback intent detector lower-cases the text and tests
the keyword groups in the fixed order refusal, disagreement, delay,
disinterest, criticism, returning the first group with a matching keyword
at confidence 0.7, and `neutral_polite` at 0.6 when nothing matches; this
is exactly the spec's first-match-wins description `detectIntentSpec`. -/
theorem claim_C7 (text : List Char) : detect_intent text = detectIntentSpec text := by
  simp only [detect_intent, detectIntentSpec, INTENT_GROUPS]
  cases h1 : kwAny refusalKws (pyLower text) <;>
  cases h2 : kwAny disagreementKws (pyLower text) <;>
  cases h3 : kwAny delayKws (pyLower text) <;>
  cases h4 : kwAny disinterestKws (pyLower text) <;>
  cases h5 : kwAny criticismKws (pyLower text) <;>
  simp [List.find?, h1, h2, h3, h4, h5]

/-- Claim C10: `disinterest` is returned exactly for texts whose
lower-cased form contains "don't want" or "not for me" and no refusal,
disagreement or delay keyword; the keywords "not interested" and 興味ない of
the disinterest group are unreachable because the refusal group, tested
first, contains them too. -/
theorem claim_C10 (text : List Char) :
    detect_intent text = ("disinterest", 0.7) ↔
      ((pyIn (toL "don't want") (pyLower text) = true ∨
          pyIn (toL "not for me") (pyLower text) = true) ∧
        kwAny refusalKws (pyLower text) = false ∧
        kwAny disagreementKws (pyLower text) = false ∧
        kwAny delayKws (pyLower text) = false) := by
  have d1 : ¬("refusal" : String) = "disinterest" := by decide
  have d2 : ¬("disagreement" : String) = "disinterest" := by decide
  have d3 : ¬("delay" : String) = "disinterest" := by decide
  have d4 : ¬("criticism" : String) = "disinterest" := by decide
  have d5 : ¬("neutral_polite" : String) = "disinterest" := by decide
  simp only [detect_intent]
  cases h1 : kwAny refusalKws (pyLower text) <;>
  cases h2 : kwAny disagreementKws (pyLower text) <;>
  cases h3 : kwAny delayKws (pyLower text) <;>
  cases h4 : kwAny disinterestKws (pyLower text) <;>
  cases h5 : kwAny criticismKws (pyLower text) <;>
  simp_all [kwAny, refusalKws, disagreementKws, delayKws, disinterestKws, criticismKws,
    Prod.mk.injEq] <;> tauto

theorem find?_mem {α : Type} (p : α → Bool) (l : List α) :
    ∀ (a : α), List.find? p l = some a → a ∈ l := by
  induction l with
  | nil => intro a h; simp [List.find?] at h
  | cons b t ih =>
    intro a h
    rcases hb : p b with _ | _
    · simp only [List.find?, hb] at h
      exact List.mem_cons_of_mem b (ih a h)
    · simp only [List.find?, hb, Option.some.injEq] at h
      exact h ▸ List.mem_cons_self b t

theorem nthD_all (P : List Char → Bool) : ∀ (l : List (List Char)) (n : Nat),
    l.all P = true → P [] = true → P (nthD l n) = true
  | [], _, _, h0 => h0
  | a :: _, 0, h, _ => by
    simp only [List.all_cons, Bool.and_eq_true] at h
    exact h.1
  | _ :: t, n + 1, h, h0 => by
    simp only [List.all_cons, Bool.and_eq_true] at h
    exact nthD_all P t n h.2 h0

theorem templatesWf (intent : String) :
    (lookupTemplates intent).all (wfm SOFTENERS) = true := by
  rcases h : TEMPLATES.find? (fun p => p.1 == intent) with _ | p
  · unfold lookupTemplates
    rw [h]
    decide
  · have hp : p ∈ TEMPLATES := find?_mem (fun q => q.1 == intent) TEMPLATES p h
    unfold lookupTemplates
    rw [h]
    show p.2.all (wfm SOFTENERS) = true
    fin_cases hp <;> decide

/-- Claim C8: for every intent (unknown intents fall back to the
neutral_polite templates) and every behaviour of the random source, the
filled template contains no brace character, i.e. no unresolved
placeholder syntax: every placeholder of every shipped template has a
softener entry and is substituted by a brace-free phrase. -/
theorem claim_C8 (intent : String) (tpick : Nat) (pk : List Char → Nat) :
    noBr (tatemae_generator intent tpick pk).2 = true := by
  have hw : wfm SOFTENERS (chooseFrom (lookupTemplates intent) tpick) = true := by
    have hall := templatesWf intent
    exact nthD_all (wfm SOFTENERS) _ _ hall (by decide)
  have h := fill_main SOFTENERS pk [] (chooseFrom (lookupTemplates intent) tpick) rfl hw
  simpa [tatemae_generator] using h

theorem validate_ok_parts {inp : Translator.PyObj} {lv : String} {cx : Option String}
    {vl : String} {vc : Option String}
    (h : Translator.validate_input inp lv cx = Except.ok (vl, vc)) :
    vl = (if Translator.VALID_LEVELS.contains lv then lv else "business") := by
  cases inp with
  | nonstr ty => exact absurd h (by simp [Translator.validate_input])
  | pstr s =>
    simp only [Translator.validate_input] at h
    split_ifs at h with hc1 hc2 hc3 hc4 hc5
    all_goals try exact Except.noConfusion h
    all_goals
      obtain ⟨h1, h2⟩ := Prod.mk.injEq .. ▸ Except.ok.inj h
    all_goals split_ifs <;> simp_all

/-- Claim C5: validation rejects exactly non-string, empty or
whitespace-only, and over-long input; on a rejected input the pipeline is
never invoked (the result does not depend on the workflow), and the result
is the structured validation-error record with intent `error`, confidence
0, the fixed apology text and a populated error field. -/
theorem claim_C5 (inp : Translator.PyObj) (lv : String) (cx : Option String)
    (run₁ run₂ : Translator.TranslationState → Except (List Char) Translator.TranslationState) :
    ((Translator.validate_input inp lv cx).isOk = !(Translator.rejectedSpec inp)) ∧
    (Translator.rejectedSpec inp = true →
      Translator.translate inp lv cx run₁ = Translator.translate inp lv cx run₂ ∧
      (Translator.translate inp lv cx run₁).intent = some "error" ∧
      (Translator.translate inp lv cx run₁).confidence = some 0 ∧
      (Translator.translate inp lv cx run₁).tatemae_text =
        toL "申し訳ございません。入力内容を確認してください。" ∧
      (Translator.translate inp lv cx run₁).error.isSome = true) := by
  cases inp with
  | nonstr ty => exact ⟨rfl, fun _ => ⟨rfl, rfl, rfl, rfl, rfl⟩⟩
  | pstr s =>
    by_cases h1 : (s.isEmpty || (pyStrip s).isEmpty) = true
    · have hstrip : (pyStrip s).isEmpty = true := by
        rcases (show s.isEmpty = true ∨ (pyStrip s).isEmpty = true by simpa using h1) with he | he
        · rw [List.isEmpty_iff.mp he]
          rfl
        · exact he
      have hv : Translator.validate_input (Translator.PyObj.pstr s) lv cx =
          Except.error (toL "input_text cannot be empty or whitespace only") := by
        simp only [Translator.validate_input]
        rw [if_pos h1]
      have hrej : Translator.rejectedSpec (Translator.PyObj.pstr s) = true := by
        simp [Translator.rejectedSpec, hstrip]
      refine ⟨?_, fun _ => ?_⟩
      · rw [hv, hrej]
        rfl
      · unfold Translator.translate
        rw [hv]
        exact ⟨rfl, rfl, rfl, rfl, rfl⟩
    · have h1' : (s.isEmpty || (pyStrip s).isEmpty) = false := by simpa using h1
      obtain ⟨hemp, hstrip⟩ := Bool.or_eq_false_iff.mp h1'
      have hlen : ¬(s.length < 1) := by
        have hne : s ≠ [] := fun heq => by
          rw [heq] at hemp
          exact Bool.noConfusion hemp
        have := List.length_pos.mpr hne
        omega
      by_cases h3 : 5000 < s.length
      · have hv : Translator.validate_input (Translator.PyObj.pstr s) lv cx =
            Except.error (toL "input_text too long (maximum 5000 characters, got "
              ++ toL (toString s.length) ++ toL ")") := by
          simp only [Translator.validate_input]
          rw [if_neg (by simp [h1']), if_neg hlen, if_pos h3]
        have hrej : Translator.rejectedSpec (Translator.PyObj.pstr s) = true := by
          simp [Translator.rejectedSpec, h3]
        refine ⟨?_, fun _ => ?_⟩
        · rw [hv, hrej]
          rfl
        · unfold Translator.translate
          rw [hv]
          exact ⟨rfl, rfl, rfl, rfl, rfl⟩
      · have hv : Translator.validate_input (Translator.PyObj.pstr s) lv cx =
            Except.ok
              (if Translator.VALID_LEVELS.contains lv then lv else "business",
               if cx.isSome && !(Translator.VALID_CONTEXTS.contains cx) then none else cx) := by
          simp only [Translator.validate_input]
          rw [if_neg (by simp [h1']), if_neg hlen, if_neg h3]
        have hrej : Translator.rejectedSpec (Translator.PyObj.pstr s) = false := by
          simp [Translator.rejectedSpec, hstrip, h3]
        refine ⟨?_, fun hre => ?_⟩
        · rw [hv, hrej]
          rfl
        · rw [hrej] at hre
          exact Bool.noConfusion hre

/-- Claim C5, witness: the whitespace-only input "   " is rejected with a
structured error, independently of the workflow. -/
theorem claim_C5_witness :
    Translator.translate (Translator.PyObj.pstr (toL "   ")) "business" none
        (fun st => Except.ok st) =
      Translator.translate (Translator.PyObj.pstr (toL "   ")) "business" none
        (fun _ => Except.error []) ∧
    (Translator.translate (Translator.PyObj.pstr (toL "   ")) "business" none
        (fun st => Except.ok st)).intent = some "error" := by
  have h := (claim_C5 (Translator.PyObj.pstr (toL "   ")) "business" none
    (fun st => Except.ok st) (fun _ => Except.error [])).2 (by decide)
  exact ⟨h.1, h.2.1⟩

/-- Unfolding lemma for `translate` when validation succeeds. -/
theorem translate_ok_case {inp : Translator.PyObj} {lv : String} {cx : Option String}
    {run : Translator.TranslationState → Except (List Char) Translator.TranslationState}
    {vl : String} {vc : Option String}
    (hv : Translator.validate_input inp lv cx = Except.ok (vl, vc)) :
    Translator.translate inp lv cx run =
      (match run (Translator.initState (Translator.textOf inp) vl vc) with
       | Except.ok fs =>
         { tatemae_text := fs.tatemae_text.getD [], intent := fs.intent,
           confidence := fs.confidence, detected_language := fs.detected_language,
           level := vl, context := vc, error := none }
       | Except.error e =>
         { tatemae_text := toL "申し訳ございません。現在処理できない状況です。", intent := some "error",
           confidence := some 0, detected_language := none, level := lv, context := cx,
           error := some e }) := by
  unfold Translator.translate
  rw [hv]

/-- Claim C6 counterexample: with an invalid politeness level the level
field of the result is not always coerced to `business` — a rejected input
echoes the caller's original level back. -/
theorem claim_C6_counterexample :
    (Translator.translate (Translator.PyObj.pstr (toL "")) "bogus" none
        (fun st => Except.ok st)).level = "bogus" ∧ ("bogus" : String) ≠ "business" :=
  ⟨rfl, by decide⟩

/-- Claim C6 amended: a valid level is echoed back on every path; an
invalid level is coerced to `business` in the result whenever validation
accepts the input and the workflow succeeds (on error results the original
level is echoed instead). -/
theorem claim_C6_amended (inp : Translator.PyObj) (lv : String) (cx : Option String)
    (run : Translator.TranslationState → Except (List Char) Translator.TranslationState) :
    (Translator.VALID_LEVELS.contains lv = true →
      (Translator.translate inp lv cx run).level = lv) ∧
    (Translator.VALID_LEVELS.contains lv = false →
      ∀ vl vc fs, Translator.validate_input inp lv cx = Except.ok (vl, vc) →
        run (Translator.initState (Translator.textOf inp) vl vc) = Except.ok fs →
        (Translator.translate inp lv cx run).level = "business") := by
  constructor
  · intro hlv
    rcases hv : Translator.validate_input inp lv cx with e0 | ⟨vl, vc⟩
    · unfold Translator.translate
      rw [hv]
    · have hvl := validate_ok_parts hv
      rw [if_pos hlv] at hvl
      rw [translate_ok_case hv]
      rcases hr : run (Translator.initState (Translator.textOf inp) vl vc) with e | fs
      · rfl
      · exact hvl
  · intro hlv vl vc fs hval hrun
    have hvl := validate_ok_parts hval
    rw [if_neg (show ¬(Translator.VALID_LEVELS.contains lv = true) by rw [hlv]; simp)] at hvl
    rw [translate_ok_case hval, hrun]
    exact hvl

/-- Claim C6 amended, witness: an invalid level with an accepted input and
a successful workflow run is coerced to `business`. -/
theorem claim_C6_amended_witness :
    (Translator.translate (Translator.PyObj.pstr (toL "hello")) "bogus" none
        (fun st => Except.ok st)).level = "business" :=
  (claim_C6_amended (Translator.PyObj.pstr (toL "hello")) "bogus" none
      (fun st => Except.ok st)).2 rfl "business" none
    (Translator.initState (toL "hello") "business" none) rfl rfl

/-- Claim C1: the façade is total (the embedding returns a result record
for every input, string or not); when validation passes and the workflow
raises, the result carries the fixed apology, intent `error`, confidence 0
and the exception description; and the error field is populated exactly
when the call failed. -/
theorem claim_C1 (inp : Translator.PyObj) (lv : String) (cx : Option String)
    (run : Translator.TranslationState → Except (List Char) Translator.TranslationState) :
    (∀ vl vc e, Translator.validate_input inp lv cx = Except.ok (vl, vc) →
      run (Translator.initState (Translator.textOf inp) vl vc) = Except.error e →
      (Translator.translate inp lv cx run).tatemae_text =
          toL "申し訳ございません。現在処理できない状況です。" ∧
        (Translator.translate inp lv cx run).intent = some "error" ∧
        (Translator.translate inp lv cx run).confidence = some 0 ∧
        (Translator.translate inp lv cx run).error = some e) ∧
    ((Translator.translate inp lv cx run).error = none ↔
      ∃ vl vc, Translator.validate_input inp lv cx = Except.ok (vl, vc) ∧
        (run (Translator.initState (Translator.textOf inp) vl vc)).isOk = true) := by
  rcases hv : Translator.validate_input inp lv cx with e0 | ⟨vl, vc⟩
  · constructor
    · intro vl vc e hok
      exact absurd hok (by simp)
    · unfold Translator.translate
      rw [hv]
      constructor
      · intro h
        exact absurd h (by simp)
      · rintro ⟨vl, vc, hok, -⟩
        exact absurd hok (by simp)
  · rcases hr : run (Translator.initState (Translator.textOf inp) vl vc) with e | fs
    · constructor
      · intro vl' vc' e' hok hrun
        obtain ⟨h1, h2⟩ := Prod.mk.injEq .. ▸ Except.ok.inj hok
        subst h1
        subst h2
        rw [hr] at hrun
        obtain he := Except.error.inj hrun
        subst he
        rw [translate_ok_case hv, hr]
        exact ⟨rfl, rfl, rfl, rfl⟩
      · rw [translate_ok_case hv, hr]
        constructor
        · intro h
          exact absurd h (by simp)
        · rintro ⟨vl', vc', hok, hisok⟩
          obtain ⟨h1, h2⟩ := Prod.mk.injEq .. ▸ Except.ok.inj hok
          subst h1
          subst h2
          rw [hr] at hisok
          exact Bool.noConfusion hisok
    · constructor
      · intro vl' vc' e' hok hrun
        obtain ⟨h1, h2⟩ := Prod.mk.injEq .. ▸ Except.ok.inj hok
        subst h1
        subst h2
        rw [hr] at hrun
        exact absurd hrun (by simp)
      · rw [translate_ok_case hv, hr]
        constructor
        · intro _
          exact ⟨vl, vc, rfl, by rw [hr]; rfl⟩
        · intro _
          rfl

/-- Claim C1, witness: a workflow exception is converted to the structured
error result. -/
theorem claim_C1_witness :
    (Translator.translate (Translator.PyObj.pstr (toL "hello")) "business" none
        (fun _ => Except.error (toL "boom"))).intent = some "error" ∧
    (Translator.translate (Translator.PyObj.pstr (toL "hello")) "business" none
        (fun _ => Except.error (toL "boom"))).error = some (toL "boom") := by
  have h := (claim_C1 (Translator.PyObj.pstr (toL "hello")) "business" none
    (fun _ => Except.error (toL "boom"))).1 "business" none (toL "boom") rfl rfl
  exact ⟨h.2.1, h.2.2.2⟩
